import Mathlib

/-!
Verification development for the ECIEM ETL pipeline
(`ET.py` extraction/cleaning and `etl_load_postgres.py` dimensional load).

The Python source is shallowly embedded: pure functions become Lean
functions; the API provider, the pandas date parser (`pd.to_datetime`),
and the integer coercion helper (`_safe_int`) are external collaborators
and are passed in as explicit function parameters; the PostgreSQL tables
are lists of rows, with `SERIAL` surrogate keys modelled as `1, 2, 3, …`
in insertion order and `ON CONFLICT (k) DO NOTHING` modelled as
insert-if-absent by key.  Python `str` Unicode classification
(`isupper`, `isalpha`, `upper`, `lower`) is modelled with Lean's ASCII
character predicates, which agree with Python on the ASCII inputs used
by the claims.
-/

/-- Python character slice `s[:n]` (by characters, as in Python `str`). -/
def tomaStr (s : String) (n : Nat) : String :=
  String.mk (s.data.take n)

/-- Python `str.strip()` (ASCII whitespace model): drop leading and
trailing whitespace characters. -/
def pyStrip (s : String) : String :=
  String.mk
    (((s.data.dropWhile Char.isWhitespace).reverse.dropWhile
      Char.isWhitespace).reverse)

/-- Python `str.upper()` (ASCII model). -/
def pyUpper (s : String) : String :=
  String.mk (s.data.map Char.toUpper)

/-- Python `str.lower()` (ASCII model). -/
def pyLower (s : String) : String :=
  String.mk (s.data.map Char.toLower)

/-- Python `str.startswith(pre)`. -/
def pyStarts (s pre : String) : Bool :=
  pre.data.isPrefixOf s.data

/-- Python `c in s` for a single character. -/
def pyContiene (s : String) (c : Char) : Bool :=
  s.data.contains c

/-- Python `text.replace("\n", " ")`: each newline becomes a space. -/
def pyReemplazaNl (s : String) : String :=
  String.mk (s.data.map fun c => if c = '\n' then ' ' else c)

/-- Embeds `_safe_json_preview` from `ET.py`: newlines become spaces and
the text is truncated to `n` characters followed by `"..."` when longer. -/
def safeJsonPreview (text : String) (n : Nat) : String :=
  let t := pyReemplazaNl text
  if t.length > n then tomaStr t n ++ "..." else t

/-- An HTTP response as seen by `get_json`: transport status, effective
URL (including query parameters), raw body text, and the parsed JSON
payload when the body parses (`none` models a `json()` failure). -/
structure Respuesta (J : Type) where
  status : Nat
  url : String
  text : String
  json : Option J

/-- Embeds `get_json` from `ET.py`: `raise_for_status` raises for
4xx/5xx statuses, then the body is parsed as JSON; both failure modes
become `Except.error` carrying the message the Python code formats. -/
def get_json {J : Type} (r : Respuesta J) : Except String J :=
  if 400 ≤ r.status then
    Except.error ("HTTP error " ++ toString r.status ++ " en " ++ r.url
      ++ " -> " ++ safeJsonPreview r.text 300)
  else
    match r.json with
    | some j => Except.ok j
    | none =>
      Except.error ("No pude parsear JSON en " ++ r.url
        ++ " -> " ++ safeJsonPreview r.text 300)

/-- One page of the provider's paginated answer: the `filas` record
array and the reported `total` row count. -/
structure Pagina (α : Type) where
  filas : List α
  total : Nat

/-- The `while True` pagination loop of `descargar_tabla` in `ET.py`,
with explicit fuel (the Python loop's termination depends on the
provider's answers).  `provider k` is the page obtained at offset `k`. -/
def descargarLoop {α : Type} (provider : Nat → Pagina α) (limit : Nat) :
    Nat → List α → Nat → Option (List α)
  | 0, _, _ => none
  | fuel + 1, acumulado, offset =>
    let p := provider offset
    if p.filas.isEmpty then some acumulado
    else
      let acumulado' := acumulado ++ p.filas
      let offset' := offset + limit
      if p.total ≤ offset' then some acumulado'
      else descargarLoop provider limit fuel acumulado' offset'

/-- Embeds `descargar_tabla` from `ET.py`: accumulate pages starting at
offset 0 until a page is empty or the running offset reaches the
reported total. -/
def descargar_tabla {α : Type} (provider : Nat → Pagina α) (limit : Nat)
    (fuel : Nat) : Option (List α) :=
  descargarLoop provider limit fuel [] 0

/-- The static alias table `mapeo_carreras` of
`DataLoader._mapear_carrera`, in source order. -/
def mapeoCarreras : List (String × String) :=
  [("INGENIERIA EN INFORMACION Y CONTROL DE GESTION",
      "INGENIERIA EN INFORMACION Y CONTROL DE GESTION"),
   ("ING. EN INFORMACIÓN Y CONTROL DE GESTIÓN",
      "INGENIERIA EN INFORMACION Y CONTROL DE GESTION"),
   ("INGENIERÍA EN INFORMACIÓN Y CONTROL DE GESTIÓN",
      "INGENIERIA EN INFORMACION Y CONTROL DE GESTION"),
   ("ING. INFORMACION Y CONTROL DE GESTION",
      "INGENIERIA EN INFORMACION Y CONTROL DE GESTION"),
   ("INGENIERIA INFORMACION Y CONTROL GESTION",
      "INGENIERIA EN INFORMACION Y CONTROL DE GESTION"),
   ("IICG", "INGENIERIA EN INFORMACION Y CONTROL DE GESTION"),
   ("INGENIERIA EN INFORMACION Y CONTROL DE GESTIÓN",
      "INGENIERIA EN INFORMACION Y CONTROL DE GESTION"),
   ("INGENIERIA COMERCIAL", "INGENIERIA COMERCIAL"),
   ("ING. COMERCIAL", "INGENIERIA COMERCIAL"),
   ("INGENIERÍA COMERCIAL", "INGENIERIA COMERCIAL"),
   ("ING COMERCIAL", "INGENIERIA COMERCIAL"),
   ("IC", "INGENIERIA COMERCIAL")]

/-- Embeds `DataLoader._mapear_carrera`: `pd.isna` input yields the
default label, otherwise the trimmed upper-cased input is looked up in
the alias dictionary with the same default. -/
def mapearCarrera (nombre_carrera : Option String) : String :=
  match nombre_carrera with
  | none => "INGENIERIA EN INFORMACION Y CONTROL DE GESTION"
  | some s =>
    let carreraLimpia := pyUpper (pyStrip s)
    (mapeoCarreras.lookup carreraLimpia).getD
      "INGENIERIA EN INFORMACION Y CONTROL DE GESTION"

/-- A calendar date as produced by `pd.to_datetime(x).date()`. -/
structure Fecha where
  year : Nat
  month : Nat
  day : Nat
deriving DecidableEq, Repr

/-- One cell of a pandas DataFrame as the pipeline sees it: a missing
value (NaN), a string, or a parsed calendar date. -/
inductive Celda where
  | faltante : Celda
  | texto : String → Celda
  | fecha : Fecha → Celda
deriving DecidableEq, Repr

/-- Python `str(...)` applied to a cell: strings unchanged and NaN gives
the literal text `"nan"` (the date case never arises in the pipeline,
where raw cells are strings or missing). -/
def pyStr : Celda → String
  | Celda.faltante => "nan"
  | Celda.texto s => s
  | Celda.fecha _ => "date"

/-- One DataFrame column: its name, whether pandas assigned it the
`object` dtype, and its cells. -/
structure Columna where
  nombre : String
  esObjeto : Bool
  celdas : List Celda
deriving DecidableEq, Repr

/-- `df.empty` for a column-oriented frame: no cells at all. -/
def dfVacio (df : List Columna) : Bool :=
  df.all fun c => c.celdas.isEmpty

/-- The date-column detection of `limpiar_df`: the lower-cased name
starts with `"fech_"` or `"fecha_"`. -/
def esColumnaFecha (nombre : String) : Bool :=
  pyStarts (pyLower nombre) "fech_" || pyStarts (pyLower nombre) "fecha_"

/-- The first stage of `limpiar_df`: an `object`-dtype column is coerced
with `astype(str).str.strip()`; other columns pass through. -/
def coerceStrip (c : Columna) : Columna :=
  if c.esObjeto then
    { c with celdas := c.celdas.map fun v => Celda.texto (pyStrip (pyStr v)) }
  else c

/-- The sentinel replacement of `limpiar_df`:
`replace({"0000-00-00": None, "0000-00-00 00:00:00": None})`. -/
def reemplazaSentinela : Celda → Celda
  | Celda.texto s =>
    if s = "0000-00-00" ∨ s = "0000-00-00 00:00:00" then Celda.faltante
    else Celda.texto s
  | v => v

/-- `pd.to_datetime(col, errors="coerce")` cell-wise, with the parser
for date-like strings passed in as `p`: missing stays missing (NaT),
unparseable strings coerce to missing, dates pass through. -/
def aFecha (p : String → Option Fecha) : Celda → Celda
  | Celda.faltante => Celda.faltante
  | Celda.texto s =>
    match p s with
    | some f => Celda.fecha f
    | none => Celda.faltante
  | Celda.fecha f => Celda.fecha f

/-- The per-column work of `limpiar_df`: strip-coerce `object` columns,
then normalize and parse the columns detected as date columns. -/
def limpiaColumna (p : String → Option Fecha) (c : Columna) : Columna :=
  let c1 := coerceStrip c
  if esColumnaFecha c1.nombre then
    { c1 with
        celdas := c1.celdas.map fun v => aFecha p (reemplazaSentinela v),
        esObjeto := false }
  else c1

/-- Embeds `limpiar_df` from `ET.py`: an empty frame returns unchanged,
otherwise every column is cleaned. -/
def limpiar_df (p : String → Option Fecha) (df : List Columna) :
    List Columna :=
  if dfVacio df then df else df.map (limpiaColumna p)

/-- Modelled from the spec sentence for the date rule, word for word:
sentinel zero-dates become a missing value; all other values are parsed
as calendar dates, with unparseable values becoming missing. -/
def valorFechaSpec (p : String → Option Fecha) (s : String) : Celda :=
  if s = "0000-00-00" ∨ s = "0000-00-00 00:00:00" then Celda.faltante
  else
    match p s with
    | some f => Celda.fecha f
    | none => Celda.faltante

/-- A cell of the evaluation CSV as `extraer_comentarios_reales_fila`
inspects it: missing (`pd.notna` false), a string, or a non-string
value (`isinstance(valor, str)` false). -/
inductive Valor where
  | na : Valor
  | texto : String → Valor
  | otro : Valor
deriving DecidableEq, Repr

/-- The fixed candidate-column list `columnas_comentarios` (note the
source skips `r_2_7`). -/
def columnasComentarios : List String :=
  ["r_2_1", "r_2_2", "r_2_3", "r_2_4", "r_2_5", "r_2_6",
   "r_2_8", "r_2_9", "r_2_10", "r_2_11", "r_2_12", "r_2_13",
   "r_2_14", "r_2_15"]

/-- The denylist `excluir` of short categorical answers. -/
def excluir : List String :=
  ["A", "B", "C", "D", "Si", "SI", "NO", "No", "De acuerdo", "1", "2", "3"]

/-- Python `str.isupper` (ASCII model): at least one cased character and
no lower-case character. -/
def pyIsUpper (s : String) : Bool :=
  s.data.any (fun c => c.isUpper || c.isLower) &&
    s.data.all fun c => !c.isLower

/-- Python `str.isalpha` (ASCII model): nonempty and every character
alphabetic. -/
def pyIsAlpha (s : String) : Bool :=
  !s.isEmpty && s.data.all Char.isAlpha

/-- Python `valor_limpio.replace(' ', '')`. -/
def sinEspacios (s : String) : String :=
  String.mk (s.data.filter fun c => c != ' ')

/-- The acceptance test of `extraer_comentarios_reales_fila`, in source
order: not in the denylist, longer than 10 characters, not entirely
upper-case, not entirely alphabetic with spaces removed, and containing
a comma, period or space. -/
def esComentarioReal (valorLimpio : String) : Bool :=
  !(excluir.contains valorLimpio) &&
  decide (valorLimpio.length > 10) &&
  !(pyIsUpper valorLimpio) &&
  !(pyIsAlpha (sinEspacios valorLimpio)) &&
  (pyContiene valorLimpio ',' || pyContiene valorLimpio '.' ||
    pyContiene valorLimpio ' ')

/-- Embeds `extraer_comentarios_reales_fila` from
`etl_load_postgres.py`: a row is a partial map from column names to
cells; accepted trimmed values are joined with `" | "` in
column-declaration order, and the sentinel is returned when none
qualifies.  `comentariosDeFila` is the `comentarios` accumulator of the
source loop. -/
def comentariosDeFila (fila : String → Option Valor) : List String :=
  columnasComentarios.filterMap fun col =>
    match fila col with
    | some (Valor.texto v) =>
      let valorLimpio := pyStrip v
      if esComentarioReal valorLimpio then some valorLimpio else none
    | _ => none

/-- The final join of `extraer_comentarios_reales_fila`:
`' | '.join(comentarios) if comentarios else "Sin comentarios
específicos"`. -/
def extraer_comentarios_reales_fila (fila : String → Option Valor) :
    String :=
  if (comentariosDeFila fila).isEmpty then "Sin comentarios específicos"
  else String.intercalate " | " (comentariosDeFila fila)

/-- Modelled from the spec sentence describing the acceptance rule, as a
proposition in the spec's own order. -/
def cualificaSpec (v : String) : Prop :=
  excluir.contains (pyStrip v) = false ∧
  10 < (pyStrip v).length ∧
  pyIsUpper (pyStrip v) = false ∧
  pyIsAlpha (sinEspacios (pyStrip v)) = false ∧
  (pyContiene (pyStrip v) ',' = true ∨ pyContiene (pyStrip v) '.' = true ∨
    pyContiene (pyStrip v) ' ' = true)

instance (v : String) : Decidable (cualificaSpec v) := by
  unfold cualificaSpec
  infer_instance

/-- Modelled from the spec: the synthesized comment is the `" | "`
concatenation, in candidate-field declaration order, of exactly the
textual, non-missing candidate values that qualify, and the fixed
sentinel when none does. -/
def aceptadosSpec (fila : String → Option Valor) : List String :=
  columnasComentarios.filterMap fun col =>
    match fila col with
    | some (Valor.texto v) =>
      if cualificaSpec v then some (pyStrip v) else none
    | _ => none

/-- Modelled from the spec: the sentinel when no field qualifies, the
`" | "` concatenation of the qualifying trimmed values otherwise. -/
def comentarioSintetizadoSpec (fila : String → Option Valor) : String :=
  if aceptadosSpec fila = [] then "Sin comentarios específicos"
  else String.intercalate " | " (aceptadosSpec fila)

/-- One record of the cleaned `ALUMN_PRACT` snapshot as the load stage
reads it back: every field is a string when present (`pd.notna`) and
`none` when missing. -/
structure Registro where
  rut_alum : Option String := none
  nomb_alum : Option String := none
  apell_alum : Option String := none
  email_alum : Option String := none
  cel_alum : Option String := none
  mat_alum : Option String := none
  ano_ingreso_alum : Option String := none
  niv_estudio_alum : Option String := none
  carr_alum : Option String := none
  nomb_empr_prac : Option String := none
  dir_empr_prac : Option String := none
  ciudad_emp_prac : Option String := none
  nat_empresa : Option String := none
  act_econo_empresa : Option String := none
  fech_ini_prac : Option String := none
  fech_fin_prac : Option String := none
  proces_terminado : Option String := none
  como_practi_profesional : Option String := none
deriving DecidableEq, Repr

/-- The record with every field missing (all `NaN`). -/
def registroVacio : Registro := {}

/-- Embeds `DataLoader._parse_fecha`: missing values, the empty string
and the zero-date sentinels give `None`; everything else goes through
`pd.to_datetime` (passed in as `p`, with `none` modelling the
`except` branch). -/
def parse_fecha (p : String → Option Fecha) : Option String → Option Fecha
  | none => none
  | some s =>
    if s = "" ∨ s = "0000-00-00" ∨ s = "0000-00-00 00:00:00" then none
    else p s

/-- Insert-if-absent by natural key: the embedding of
`INSERT … ON CONFLICT (clave) DO NOTHING` on a table (a conflicting
insert leaves the table unchanged, untouched rows keep their order). -/
def insPorClave {ρ κ : Type} [DecidableEq κ] (clave : ρ → κ)
    (t : List ρ) (r : ρ) : List ρ :=
  if ∃ x ∈ t, clave x = clave r then t else t ++ [r]

/-- The distinct non-blank `act_econo_empresa` values collected by
`_load_rubro` (`dropna().unique()` then the truthiness filter on the
stripped string). -/
def rubrosDe (df : List Registro) : List String :=
  ((df.filterMap Registro.act_econo_empresa).dedup).filter
    fun r => pyStrip r != ""

/-- Embeds `DataLoader._load_rubro`: each collected value is stripped
and inserted with `ON CONFLICT (nombrerubro) DO NOTHING`; the rubro
table stores the `nombrerubro` values. -/
def cargaRubro (t : List String) (df : List Registro) : List String :=
  ((rubrosDe df).map pyStrip).foldl (insPorClave id) t

/-- A row of the `carrera` dimension. -/
structure CarreraRow where
  nombrecarrera : String
  escuela : String
deriving DecidableEq, Repr

/-- The fixed `carreras_oficiales` list of `_load_carrera`. -/
def carrerasOficiales : List CarreraRow :=
  [⟨"INGENIERIA EN INFORMACION Y CONTROL DE GESTION",
      "Escuela de Ciencias Empresariales"⟩,
   ⟨"INGENIERIA COMERCIAL", "Escuela de Ciencias Empresariales"⟩]

/-- Embeds `DataLoader._load_carrera`: the two official careers are
inserted with `ON CONFLICT (nombrecarrera) DO NOTHING`. -/
def cargaCarrera (t : List CarreraRow) : List CarreraRow :=
  carrerasOficiales.foldl (insPorClave CarreraRow.nombrecarrera) t

/-- A row of the `estudiante` dimension. -/
structure EstudianteRow where
  nombre : Option String
  apellido : Option String
  correo : Option String
  telefono : Option String
  rut_alumno : String
  matricula : Option String
  anoingreso : Option Int
  nivelestudio : Option String
deriving DecidableEq, Repr

/-- The `estudiante` row `_load_estudiante` builds from a record whose
`rut_alum` is present (`safeInt` embeds `_safe_int`). -/
def estudianteDe (safeInt : Option String → Option Int) (r : Registro)
    (rut : String) : EstudianteRow :=
  ⟨r.nomb_alum.map pyStrip, r.apell_alum.map pyStrip,
   r.email_alum.map pyStrip, r.cel_alum.map pyStrip,
   pyStrip rut, r.mat_alum.map pyStrip,
   safeInt r.ano_ingreso_alum, r.niv_estudio_alum.map pyStrip⟩

/-- Embeds `DataLoader._load_estudiante`: rows whose `rut_alum` is
present are inserted with `ON CONFLICT (rut_alumno) DO NOTHING`. -/
def cargaEstudiante (safeInt : Option String → Option Int)
    (t : List EstudianteRow) (df : List Registro) : List EstudianteRow :=
  (df.filterMap fun r => r.rut_alum.map (estudianteDe safeInt r)).foldl
    (insPorClave EstudianteRow.rut_alumno) t

/-- A row of the `tiempo` dimension. -/
structure TiempoRow where
  anno : Nat
  mes : Nat
  trimestre : Nat
  semestre : Nat
  fechacompleta : Fecha
deriving DecidableEq, Repr

/-- The `tiempo` row `_load_tiempo` derives from a date:
`trimestre = (mes - 1) // 3 + 1` and `semestre = 1 if mes <= 6 else 2`
(for calendar dates `mes` ranges over `1..12`, so the Lean truncated
subtraction agrees with Python). -/
def tiempoRowDe (f : Fecha) : TiempoRow :=
  ⟨f.year, f.month, (f.month - 1) / 3 + 1,
   if f.month ≤ 6 then 1 else 2, f⟩

/-- The `fechas_unicas` set of `_load_tiempo`: parsed start and end
dates of every record, deduplicated. -/
def fechasDe (p : String → Option Fecha) (df : List Registro) :
    List Fecha :=
  ((df.filterMap fun r => parse_fecha p r.fech_ini_prac) ++
    (df.filterMap fun r => parse_fecha p r.fech_fin_prac)).dedup

/-- Embeds `DataLoader._load_tiempo`: one derived row per distinct date,
inserted with `ON CONFLICT (fechacompleta) DO NOTHING`. -/
def cargaTiempo (p : String → Option Fecha) (t : List TiempoRow)
    (df : List Registro) : List TiempoRow :=
  ((fechasDe p df).map tiempoRowDe).foldl
    (insPorClave TiempoRow.fechacompleta) t

/-- Embeds `DataLoader._obtener_comentario_por_indice`: the synthesized
comment at `index` of the enriched evaluation snapshot
(`comentarios_evaluacion` column, passed as the list `comentarios`) is
prefixed and truncated to 200 characters; an out-of-range index, an
empty comment or the extraction sentinel yields a default label. -/
def obtenerComentario (comentarios : List String) (index : Nat) : String :=
  match comentarios[index]? with
  | some comentario =>
    if comentario ≠ "" ∧ comentario ≠ "Sin comentarios específicos" then
      "Evaluación " ++ toString (index + 1) ++ ": " ++ tomaStr comentario 200
    else
      "Evaluación profesional " ++ toString (index + 1) ++
        " - Práctica estudiantil"
  | none =>
    "Evaluación profesional " ++ toString (index + 1) ++
      " - Práctica estudiantil"

/-- The dimension lookups `_load_hechos` performs per record, as
resolved query functions over the already-loaded store, plus the
external date parser.  A lookup answers `none` when the `SELECT` finds
no row. -/
structure HechosEnv where
  idEstudiantePorRut : String → Option Nat
  idPracticaPorIndice : Nat → Option Nat
  idEmpresaPorNombre : String → Option Nat
  idTiempoPorFecha : Fecha → Option Nat
  pdToDatetime : String → Option Fecha

/-- A row of `evaluacion_empresa`: its `SERIAL` surrogate key and the
stored comment. -/
structure EvalRow where
  id_evaluacionempresa : Nat
  comentario : String
deriving DecidableEq, Repr

/-- A row of the `hechos` fact table (`id_empresa` and `id_tiempo` are
nullable foreign keys). -/
structure HechoRow where
  id_estudiante : Nat
  id_practica : Nat
  id_empresa : Option Nat
  id_tiempo : Option Nat
  id_evaluacionempresa : Nat
  id_rotacionempresa : Nat
deriving DecidableEq, Repr

/-- The store state `_load_hechos` mutates: the `evaluacion_empresa`
table, the `hechos` table, and the number of skip warnings logged. -/
structure EstadoHechos where
  evaluaciones : List EvalRow
  hechos : List HechoRow
  advertencias : Nat
deriving DecidableEq, Repr

/-- The store state before `_load_hechos` runs (both tables freshly
created and empty). -/
def estadoInicial : EstadoHechos := ⟨[], [], 0⟩

/-- One iteration of the `_load_hechos` loop at `index` (DB inserts all
succeed; store errors are an external failure mode).  A record whose
`rut_alum` is missing is passed over entirely; otherwise a fresh
evaluation row is always created, and the fact row is inserted only
when the student key, the practice key and the new evaluation key are
all truthy, a skip warning being logged otherwise. -/
def pasoHecho (env : HechosEnv) (comentarios : List String) (index : Nat)
    (row : Registro) (st : EstadoHechos) : EstadoHechos :=
  match row.rut_alum with
  | none => st
  | some rut =>
    let idEstudiante := env.idEstudiantePorRut (pyStrip rut)
    let idPractica := env.idPracticaPorIndice index
    let idEmpresa :=
      match row.nomb_empr_prac with
      | some n => env.idEmpresaPorNombre (pyStrip n)
      | none => none
    let idTiempo :=
      match parse_fecha env.pdToDatetime row.fech_ini_prac with
      | some f => env.idTiempoPorFecha f
      | none => none
    let comentario := obtenerComentario comentarios index
    let idEval := st.evaluaciones.length + 1
    let st1 : EstadoHechos :=
      { st with evaluaciones := st.evaluaciones ++ [⟨idEval, comentario⟩] }
    match idEstudiante, idPractica with
    | some a, some b =>
      if a ≠ 0 ∧ b ≠ 0 ∧ idEval ≠ 0 then
        { st1 with
            hechos := st1.hechos ++ [⟨a, b, idEmpresa, idTiempo, idEval, 1⟩] }
      else { st1 with advertencias := st1.advertencias + 1 }
    | _, _ => { st1 with advertencias := st1.advertencias + 1 }

/-- The `for index, row in df.iterrows()` loop of `_load_hechos`. -/
def cargaHechosAux (env : HechosEnv) (comentarios : List String) :
    List Registro → Nat → EstadoHechos → EstadoHechos
  | [], _, st => st
  | r :: rs, i, st =>
    cargaHechosAux env comentarios rs (i + 1) (pasoHecho env comentarios i r st)

/-- Embeds `DataLoader._load_hechos` over the cleaned snapshot. -/
def cargaHechos (env : HechosEnv) (comentarios : List String)
    (registros : List Registro) : EstadoHechos :=
  cargaHechosAux env comentarios registros 0 estadoInicial

/-- Whether the record at a given snapshot position produces a fact row:
`rut_alum` present and the student and practice lookups truthy. -/
def insertable (env : HechosEnv) (p : Nat × Registro) : Bool :=
  match p.2.rut_alum with
  | none => false
  | some rut =>
    match env.idEstudiantePorRut (pyStrip rut), env.idPracticaPorIndice p.1 with
    | some a, some b => decide (a ≠ 0) && decide (b ≠ 0)
    | _, _ => false

/-- Whether the record at a given snapshot position is skipped with a
logged warning: `rut_alum` present but some required key falsy. -/
def advertida (env : HechosEnv) (p : Nat × Registro) : Bool :=
  p.2.rut_alum.isSome && !insertable env p

/-- The invariant `_load_hechos` maintains on the store: evaluation
surrogate keys are exactly `1..n` in insertion order, the fact rows
reference strictly increasing evaluation keys, and every referenced
evaluation key points into the evaluation table. -/
def invHechos (st : EstadoHechos) : Prop :=
  (∀ k, 1 ≤ k → k ≤ st.evaluaciones.length →
    k ∈ st.evaluaciones.map EvalRow.id_evaluacionempresa) ∧
  List.Pairwise (· < ·)
    (st.hechos.map HechoRow.id_evaluacionempresa) ∧
  ∀ k ∈ st.hechos.map HechoRow.id_evaluacionempresa,
    1 ≤ k ∧ k ≤ st.evaluaciones.length

/-- Test provider: total 5, page size 2, pages filled to the total. -/
def provRep : Nat → Pagina Nat :=
  fun k => ⟨List.replicate (min 2 (5 - k)) 0, 5⟩

/-- Test response: server error with the effective ECIEM request URL
(query string carrying the access token) and a short body. -/
def respNoRedacta : Respuesta Unit :=
  ⟨500,
   "https://www.eciem.cl/api/api_datos.php?tabla=alumn_pract&token=Eciem_20252026",
   "cuerpo", none⟩

/-- Test response: success status whose body is not valid JSON. -/
def respSinJson : Respuesta Unit :=
  ⟨200, "https://www.eciem.cl/api/api_datos.php", "cuerpo", none⟩

/-- Test environment: no dimension lookup resolves. -/
def envNulo : HechosEnv :=
  ⟨fun _ => none, fun _ => none, fun _ => none, fun _ => none,
   fun _ => none⟩

/-- Test environment: student and practice lookups resolve to key 1. -/
def envUno : HechosEnv :=
  ⟨fun _ => some 1, fun _ => some 1, fun _ => none, fun _ => none,
   fun _ => none⟩

/-- Test comment column: one synthesized comment. -/
def comUno : List String := ["Excelente trabajo, muy puntual"]

/-- Test snapshot: one record with only the rut present. -/
def regUno : List Registro := [{ rut_alum := some "1-9" }]

/-- Test evaluation row: only categorical answers. -/
def filaCategorica : String → Option Valor := fun col =>
  if col = "r_2_1" then some (Valor.texto "Si")
  else if col = "r_2_2" then some (Valor.texto "B")
  else if col = "r_2_3" then some (Valor.texto "1234567890123")
  else none

/-- Test evaluation row: one prose comment. -/
def filaProsa : String → Option Valor := fun col =>
  if col = "r_2_1" then
    some (Valor.texto "El desempeño fue excelente, muy puntual.")
  else none

/-- Test date parser: recognizes the two dates used by the witnesses. -/
def parserTest : String → Option Fecha := fun s =>
  if s = "2024-04-15" then some ⟨2024, 4, 15⟩
  else if s = "2024-07-01" then some ⟨2024, 7, 1⟩
  else if s = "2024-04-10" then some ⟨2024, 4, 10⟩
  else none

/-- Test snapshot for the time dimension: one start date. -/
def dfAbril : List Registro := [{ fech_ini_prac := some "2024-04-15" }]

/-- Test date column for the cleaner. -/
def celdasFechaTest : List Celda :=
  [Celda.texto "0000-00-00", Celda.texto "2024-04-10", Celda.faltante,
   Celda.texto "xx"]

/-- Test frame: one non-empty object column that is not a date column. -/
def dfObjetoTest : List Columna :=
  [⟨"observacion", true, [Celda.faltante, Celda.texto "  hola  "]⟩]

/-- A dictionary lookup with a default only ever produces a value of the
dictionary or the default. -/
theorem lookup_getD_closed {κ ν : Type} [BEq κ] (P : ν → Prop)
    (l : List (κ × ν)) (k : κ) (d : ν)
    (hl : ∀ p ∈ l, P p.2) (hd : P d) : P ((l.lookup k).getD d) := by
  induction l with
  | nil => simpa [List.lookup] using hd
  | cons p t ih =>
    rcases p with ⟨a, b⟩
    by_cases h : k == a
    · simpa [List.lookup, h] using hl ⟨a, b⟩ (List.mem_cons_self _ _)
    · simp only [List.lookup, h]
      exact ih fun q hq => hl q (List.mem_cons_of_mem _ hq)

/-- `insPorClave` either leaves the table unchanged or appends the row,
so the key column gains at most the new key. -/
theorem claves_insPorClave {ρ κ : Type} [DecidableEq κ] (clave : ρ → κ)
    (t : List ρ) (r : ρ) :
    insPorClave clave t r = t ∨
      insPorClave clave t r = t ++ [r] := by
  unfold insPorClave
  split
  · exact Or.inl rfl
  · exact Or.inr rfl

/-- A conflicting insert is silently ignored. -/
theorem insPorClave_of_mem {ρ κ : Type} [DecidableEq κ] (clave : ρ → κ)
    (t : List ρ) (r : ρ) (h : clave r ∈ t.map clave) :
    insPorClave clave t r = t := by
  unfold insPorClave
  rcases List.mem_map.mp h with ⟨x, hx, he⟩
  rw [if_pos ⟨x, hx, he⟩]

/-- Keys already present survive an insert. -/
theorem mem_claves_insPorClave {ρ κ : Type} [DecidableEq κ]
    (clave : ρ → κ) (t : List ρ) (r : ρ) (a : κ)
    (h : a ∈ t.map clave) : a ∈ (insPorClave clave t r).map clave := by
  rcases claves_insPorClave clave t r with he | he <;> rw [he]
  · exact h
  · simp only [List.map_append, List.mem_append]
    exact Or.inl h

/-- The inserted row's key is present afterwards. -/
theorem clave_propia_insPorClave {ρ κ : Type} [DecidableEq κ]
    (clave : ρ → κ) (t : List ρ) (r : ρ) :
    clave r ∈ (insPorClave clave t r).map clave := by
  unfold insPorClave
  split
  · rename_i h
    rcases h with ⟨x, hx, he⟩
    exact List.mem_map.mpr ⟨x, hx, he⟩
  · simp

/-- An insert preserves distinctness of the key column. -/
theorem nodup_insPorClave {ρ κ : Type} [DecidableEq κ] (clave : ρ → κ)
    (t : List ρ) (r : ρ) (h : (t.map clave).Nodup) :
    ((insPorClave clave t r).map clave).Nodup := by
  unfold insPorClave
  split
  · exact h
  · rename_i hno
    rw [List.map_append]
    refine List.Nodup.append h (by simp) ?_
    intro a ha hb
    simp only [List.map_cons, List.map_nil, List.mem_singleton] at hb
    subst hb
    rcases List.mem_map.mp ha with ⟨x, hx, he⟩
    exact hno ⟨x, hx, he⟩

/-- Keys present in the table survive a whole load pass. -/
theorem mem_claves_foldl {ρ κ : Type} [DecidableEq κ] (clave : ρ → κ)
    (l : List ρ) : ∀ (t : List ρ) (a : κ), a ∈ t.map clave →
      a ∈ (l.foldl (insPorClave clave) t).map clave := by
  induction l with
  | nil => intro t a h; simpa using h
  | cons r rs ih =>
    intro t a h
    exact ih (insPorClave clave t r) a (mem_claves_insPorClave clave t r a h)

/-- After a load pass every processed row's key is in the table. -/
theorem clave_mem_foldl {ρ κ : Type} [DecidableEq κ] (clave : ρ → κ)
    (l : List ρ) : ∀ (t : List ρ) (r : ρ), r ∈ l →
      clave r ∈ (l.foldl (insPorClave clave) t).map clave := by
  induction l with
  | nil => intro t r h; cases h
  | cons x xs ih =>
    intro t r h
    rcases List.mem_cons.mp h with rfl | h
    · exact mem_claves_foldl clave xs (insPorClave clave t r) (clave r)
        (clave_propia_insPorClave clave t r)
    · exact ih (insPorClave clave t x) r h

/-- A pass over rows whose keys are all already present does nothing. -/
theorem foldl_fija {ρ κ : Type} [DecidableEq κ] (clave : ρ → κ)
    (l : List ρ) : ∀ (t : List ρ), (∀ r ∈ l, clave r ∈ t.map clave) →
      l.foldl (insPorClave clave) t = t := by
  induction l with
  | nil => intro t _; rfl
  | cons x xs ih =>
    intro t h
    have hx : insPorClave clave t x = t :=
      insPorClave_of_mem clave t x (h x (List.mem_cons_self _ _))
    rw [List.foldl_cons, hx]
    exact ih t fun r hr => h r (List.mem_cons_of_mem _ hr)

/-- A second identical load pass is the identity: conflicting inserts
are silently ignored, nothing is merged or updated. -/
theorem foldl_insPorClave_idem {ρ κ : Type} [DecidableEq κ]
    (clave : ρ → κ) (l t : List ρ) :
    l.foldl (insPorClave clave) (l.foldl (insPorClave clave) t) =
      l.foldl (insPorClave clave) t :=
  foldl_fija clave l _ fun r hr => clave_mem_foldl clave l t r hr

/-- A load pass preserves distinctness of the key column. -/
theorem nodup_foldl_insPorClave {ρ κ : Type} [DecidableEq κ]
    (clave : ρ → κ) (l : List ρ) : ∀ (t : List ρ),
      (t.map clave).Nodup →
      ((l.foldl (insPorClave clave) t).map clave).Nodup := by
  induction l with
  | nil => intro t h; simpa using h
  | cons x xs ih =>
    intro t h
    exact ih (insPorClave clave t x) (nodup_insPorClave clave t x h)

/-- Rows of the loaded table come from the initial table or the
processed rows. -/
theorem mem_of_mem_foldl {ρ κ : Type} [DecidableEq κ] (clave : ρ → κ)
    (l : List ρ) : ∀ (t : List ρ) (x : ρ),
      x ∈ l.foldl (insPorClave clave) t → x ∈ t ∨ x ∈ l := by
  induction l with
  | nil => intro t x h; exact Or.inl h
  | cons r rs ih =>
    intro t x h
    rcases ih (insPorClave clave t r) x h with h1 | h1
    · rcases claves_insPorClave clave t r with he | he <;> rw [he] at h1
      · exact Or.inl h1
      · rcases List.mem_append.mp h1 with h2 | h2
        · exact Or.inl h2
        · simp only [List.mem_singleton] at h2
          subst h2
          exact Or.inr (List.mem_cons_self _ _)
    · exact Or.inr (List.mem_cons_of_mem _ h1)

/-- C4: running the dimension load twice against the same snapshot
without an intervening wipe never produces two Rubric, Career, Person
or TimePeriod rows with the same natural key (`nombrerubro`,
`nombrecarrera`, `rut_alumno`, `fechacompleta`); the second pass's
conflicting inserts are silently ignored — the table is returned
unchanged, never merged or updated. -/
theorem dimensiones_idempotentes (safeInt : Option String → Option Int)
    (p : String → Option Fecha) (df : List Registro) :
    (cargaRubro (cargaRubro [] df) df = cargaRubro [] df ∧
      (cargaRubro (cargaRubro [] df) df).Nodup) ∧
    (cargaCarrera (cargaCarrera []) = cargaCarrera [] ∧
      ((cargaCarrera (cargaCarrera [])).map
        CarreraRow.nombrecarrera).Nodup) ∧
    (cargaEstudiante safeInt (cargaEstudiante safeInt [] df) df =
        cargaEstudiante safeInt [] df ∧
      ((cargaEstudiante safeInt (cargaEstudiante safeInt [] df) df).map
        EstudianteRow.rut_alumno).Nodup) ∧
    (cargaTiempo p (cargaTiempo p [] df) df = cargaTiempo p [] df ∧
      ((cargaTiempo p (cargaTiempo p [] df) df).map
        TiempoRow.fechacompleta).Nodup) := by
  refine ⟨⟨?_, ?_⟩, ⟨?_, ?_⟩, ⟨?_, ?_⟩, ⟨?_, ?_⟩⟩
  · exact foldl_insPorClave_idem id ((rubrosDe df).map pyStrip) []
  · unfold cargaRubro
    rw [foldl_insPorClave_idem]
    have h := nodup_foldl_insPorClave id ((rubrosDe df).map pyStrip)
      [] (by simp)
    simpa using h
  · exact foldl_insPorClave_idem CarreraRow.nombrecarrera
      carrerasOficiales []
  · unfold cargaCarrera
    rw [foldl_insPorClave_idem]
    exact nodup_foldl_insPorClave CarreraRow.nombrecarrera
      carrerasOficiales [] (by simp)
  · exact foldl_insPorClave_idem EstudianteRow.rut_alumno
      (df.filterMap fun r => r.rut_alum.map (estudianteDe safeInt r)) []
  · unfold cargaEstudiante
    rw [foldl_insPorClave_idem]
    exact nodup_foldl_insPorClave EstudianteRow.rut_alumno
      (df.filterMap fun r => r.rut_alum.map (estudianteDe safeInt r))
      [] (by simp)
  · exact foldl_insPorClave_idem TiempoRow.fechacompleta
      ((fechasDe p df).map tiempoRowDe) []
  · unfold cargaTiempo
    rw [foldl_insPorClave_idem]
    exact nodup_foldl_insPorClave TiempoRow.fechacompleta
      ((fechasDe p df).map tiempoRowDe) [] (by simp)

/-- With enough fuel, under an honest provider that reports a constant
total `T` and fills pages to the total, the pagination loop returns and
accumulates exactly the `T - offset` remaining records. -/
theorem descargarLoop_completa {α : Type} (provider : Nat → Pagina α)
    (limit T : Nat) (hl : 0 < limit)
    (htot : ∀ k, (provider k).total = T)
    (hlen : ∀ k, (provider k).filas.length = min limit (T - k)) :
    ∀ (fuel offset : Nat) (acumulado : List α), T - offset < fuel →
      ∃ res,
        descargarLoop provider limit fuel acumulado offset = some res ∧
          res.length = acumulado.length + (T - offset) := by
  intro fuel
  induction fuel with
  | zero => intro o a h; omega
  | succ f ih =>
    intro o a h
    by_cases hTo : T ≤ o
    · have hvac : (provider o).filas.isEmpty = true := by
        rw [List.isEmpty_iff_length_eq_zero, hlen o]
        omega
      refine ⟨a, ?_, by omega⟩
      simp [descargarLoop, hvac]
    · have hlt : o < T := by omega
      have hmin : 0 < min limit (T - o) := by omega
      have hvac : (provider o).filas.isEmpty = false := by
        rw [Bool.eq_false_iff]
        rw [ne_eq, List.isEmpty_iff_length_eq_zero, hlen o]
        omega
      by_cases hstop : (provider o).total ≤ o + limit
      · refine ⟨a ++ (provider o).filas, ?_, ?_⟩
        · simp [descargarLoop, hvac, hstop]
        · rw [List.length_append, hlen o]
          rw [htot o] at hstop
          omega
      · rw [htot o] at hstop
        obtain ⟨res, h1, h2⟩ :=
          ih (o + limit) (a ++ (provider o).filas) (by omega)
        refine ⟨res, ?_, ?_⟩
        · have hstop' : ¬(provider o).total ≤ o + limit := by
            rw [htot o]; omega
          simpa [descargarLoop, hvac, hstop'] using h1
        · rw [h2, List.length_append, hlen o]
          omega

/-- C2: if every page request succeeds, every response reports the same
total `T`, and the page at offset `k` holds `min limit (T - k)` records,
then `descargar_tabla` terminates and returns exactly `T` records. -/
theorem descargar_tabla_total {α : Type} (provider : Nat → Pagina α)
    (limit T : Nat) (hl : 0 < limit)
    (htot : ∀ k, (provider k).total = T)
    (hlen : ∀ k, (provider k).filas.length = min limit (T - k)) :
    (descargar_tabla provider limit (T + 1)).map List.length = some T := by
  obtain ⟨res, h1, h2⟩ :=
    descargarLoop_completa provider limit T hl htot hlen (T + 1) 0 []
      (by omega)
  unfold descargar_tabla
  rw [h1]
  simp only [Option.map_some']
  simp only [List.length_nil, Nat.zero_add, Nat.sub_zero] at h2
  rw [h2]

/-- C2 witness: the honest test provider with total 5 and page size 2
yields exactly 5 records. -/
theorem descargar_tabla_total_testigo :
    (descargar_tabla provRep 2 6).map List.length = some 5 :=
  descargar_tabla_total provRep 2 5 (by decide) (fun _ => rfl)
    (fun k => by simp [provRep])

/-- C6 counterexample: for a failing request whose effective URL carries
the access token in the query string, the raised error message contains
the URL verbatim — the token appears unredacted (the `splitOn` count
shows the credential substring occurs in the message), so the claim
that credentials are redacted is false on this input. -/
theorem get_json_sin_redactar_counterexample :
    get_json respNoRedacta = Except.error
      "HTTP error 500 en https://www.eciem.cl/api/api_datos.php?tabla=alumn_pract&token=Eciem_20252026 -> cuerpo" ∧
    ("HTTP error 500 en https://www.eciem.cl/api/api_datos.php?tabla=alumn_pract&token=Eciem_20252026 -> cuerpo" =
      "HTTP error 500 en https://www.eciem.cl/api/api_datos.php?tabla=alumn_pract&"
        ++ "token=Eciem_20252026" ++ " -> cuerpo") := by
  exact ⟨rfl, by decide⟩

/-- C6 (amended): whenever the page request yields a non-success
transport status or a body that cannot be parsed as JSON, `get_json`
raises an error whose message includes the effective request URL
verbatim — credentials are NOT redacted — together with a preview of
the response body bounded to 300 characters plus an ellipsis. -/
theorem get_json_error_mensaje {J : Type} (r : Respuesta J) :
    (400 ≤ r.status →
      get_json r = Except.error ("HTTP error " ++ toString r.status ++
        " en " ++ r.url ++ " -> " ++ safeJsonPreview r.text 300)) ∧
    (r.status < 400 → r.json = none →
      get_json r = Except.error ("No pude parsear JSON en " ++ r.url ++
        " -> " ++ safeJsonPreview r.text 300)) ∧
    (safeJsonPreview r.text 300).length ≤ 303 := by
  refine ⟨?_, ?_, ?_⟩
  · intro h
    unfold get_json
    rw [if_pos h]
  · intro h hj
    unfold get_json
    rw [if_neg (by omega), hj]
  · unfold safeJsonPreview
    by_cases hlen : (pyReemplazaNl r.text).length > 300
    · rw [if_pos hlen, String.length_append]
      have h1 : (tomaStr (pyReemplazaNl r.text) 300).length ≤ 300 :=
        List.length_take_le _ _
      have h2 : ("..." : String).length = 3 := rfl
      omega
    · rw [if_neg hlen]
      omega

/-- C6 witness: a success status with an unparseable body raises the
parse error with the URL and bounded preview. -/
theorem get_json_error_mensaje_testigo :
    get_json respSinJson = Except.error ("No pude parsear JSON en " ++
      respSinJson.url ++ " -> " ++ safeJsonPreview respSinJson.text 300) :=
  (get_json_error_mensaje respSinJson).2.1 (by decide) rfl

/-- C8: the career mapper is a total, deterministic, pure function:
every input (after trim and upper-case and alias lookup) lands in the
closed two-element canonical set, missing and unmatched input give the
configured default, `"ING. COMERCIAL"` maps to the commercial label,
and the result is never `"unknown"`. -/
theorem mapearCarrera_total (x : Option String) :
    (mapearCarrera x = "INGENIERIA EN INFORMACION Y CONTROL DE GESTION" ∨
      mapearCarrera x = "INGENIERIA COMERCIAL") ∧
    mapearCarrera none = "INGENIERIA EN INFORMACION Y CONTROL DE GESTION" ∧
    mapearCarrera (some "ING. COMERCIAL") = "INGENIERIA COMERCIAL" ∧
    mapearCarrera (some "xyz-unrecognized") =
      "INGENIERIA EN INFORMACION Y CONTROL DE GESTION" ∧
    mapearCarrera x ≠ "unknown" := by
  have hset : ∀ y : Option String,
      mapearCarrera y = "INGENIERIA EN INFORMACION Y CONTROL DE GESTION" ∨
        mapearCarrera y = "INGENIERIA COMERCIAL" := by
    intro y
    cases y with
    | none => exact Or.inl rfl
    | some s =>
      unfold mapearCarrera
      exact lookup_getD_closed
        (fun v => v = "INGENIERIA EN INFORMACION Y CONTROL DE GESTION" ∨
          v = "INGENIERIA COMERCIAL")
        mapeoCarreras (pyUpper (pyStrip s)) _ (by decide) (Or.inl rfl)
  refine ⟨hset x, rfl, by decide, by decide, ?_⟩
  rcases hset x with h | h <;> rw [h] <;> decide

/-- The code's date-cell pipeline (sentinel replacement then coerced
parse) agrees with the spec's description of the date rule on every
string value. -/
theorem valorFecha_coincide (p : String → Option Fecha) (s : String) :
    aFecha p (reemplazaSentinela (Celda.texto s)) = valorFechaSpec p s := by
  show aFecha p (if s = "0000-00-00" ∨ s = "0000-00-00 00:00:00"
      then Celda.faltante else Celda.texto s) = valorFechaSpec p s
  unfold valorFechaSpec
  by_cases h : s = "0000-00-00" ∨ s = "0000-00-00 00:00:00"
  · rw [if_pos h, if_pos h]
    rfl
  · rw [if_neg h, if_neg h]
    rfl

/-- C7: an empty batch passes through `limpiar_df` unchanged, and for
every column whose lower-cased name starts with `"fech_"` or
`"fecha_"` the cleaner maps the sentinel zero-dates to a missing value
and parses every other (stripped) value as a calendar date, with
unparseable values becoming missing — a total function, never a hard
failure. -/
theorem limpiar_df_fechas (p : String → Option Fecha) (df : List Columna)
    (nombre : String) (celdas : List Celda) :
    (dfVacio df = true → limpiar_df p df = df) ∧
    (esColumnaFecha nombre = true →
      (limpiaColumna p ⟨nombre, true, celdas⟩).celdas =
        celdas.map fun v => valorFechaSpec p (pyStrip (pyStr v))) := by
  constructor
  · intro h
    unfold limpiar_df
    rw [if_pos h]
  · intro h
    simp only [limpiaColumna, coerceStrip, h, if_true, List.map_map,
      Function.comp]
    exact congrArg (fun f => List.map f celdas)
      (funext fun v => valorFecha_coincide p (pyStrip (pyStr v)))

/-- C7 witness: the empty frame passes through, and a concrete
`fech_ini_prac` column is cleaned cell by cell. -/
theorem limpiar_df_fechas_testigo :
    dfVacio ([] : List Columna) = true ∧
    limpiar_df parserTest [] = [] ∧
    (limpiaColumna parserTest
        ⟨"fech_ini_prac", true, celdasFechaTest⟩).celdas =
      [Celda.faltante, Celda.fecha ⟨2024, 4, 10⟩, Celda.faltante,
        Celda.faltante] := by
  have h := limpiar_df_fechas parserTest [] "fech_ini_prac" celdasFechaTest
  refine ⟨by decide, h.1 (by decide), ?_⟩
  rw [h.2 (by decide)]
  decide

/-- C10: a non-empty batch has every column cleaned; in an
`object`-dtype column that is not a date column every value is coerced
to a string and stripped, so a missing value becomes the literal string
`"nan"` in the cleaned output rather than remaining missing. -/
theorem limpiar_df_objeto (p : String → Option Fecha) (df : List Columna)
    (nombre : String) (celdas : List Celda) :
    (dfVacio df = false → limpiar_df p df = df.map (limpiaColumna p)) ∧
    (esColumnaFecha nombre = false →
      (limpiaColumna p ⟨nombre, true, celdas⟩).celdas =
        celdas.map fun v => Celda.texto (pyStrip (pyStr v))) ∧
    pyStr Celda.faltante = "nan" := by
  refine ⟨?_, ?_, rfl⟩
  · intro h
    unfold limpiar_df
    rw [if_neg (by simp [h])]
  · intro h
    simp [limpiaColumna, coerceStrip, h]

/-- C10 witness: a concrete non-date object column with a missing cell
yields the literal string `"nan"` (and strings are stripped). -/
theorem limpiar_df_objeto_testigo :
    dfVacio dfObjetoTest = false ∧
    limpiar_df parserTest dfObjetoTest =
      dfObjetoTest.map (limpiaColumna parserTest) ∧
    (limpiaColumna parserTest
        ⟨"observacion", true,
          [Celda.faltante, Celda.texto "  hola  "]⟩).celdas =
      [Celda.texto "nan", Celda.texto "hola"] := by
  have h := limpiar_df_objeto parserTest dfObjetoTest "observacion"
    [Celda.faltante, Celda.texto "  hola  "]
  refine ⟨by decide, h.1 (by decide), ?_⟩
  rw [h.2.1 (by decide)]
  decide

/-- The code-side acceptance test agrees with the spec-side
qualification predicate. -/
theorem esComentarioReal_iff (v : String) :
    esComentarioReal (pyStrip v) = true ↔ cualificaSpec v := by
  unfold esComentarioReal cualificaSpec
  simp only [Bool.and_eq_true, Bool.or_eq_true, Bool.not_eq_true',
    decide_eq_true_eq]
  tauto

/-- The comment list the code accumulates is the spec's list of
qualifying values. -/
theorem comentarios_coinciden (fila : String → Option Valor) :
    comentariosDeFila fila = aceptadosSpec fila := by
  unfold comentariosDeFila aceptadosSpec
  refine congrArg (fun f => List.filterMap f columnasComentarios)
    (funext fun col => ?_)
  cases fila col with
  | none => rfl
  | some v =>
    cases v with
    | na => rfl
    | otro => rfl
    | texto s =>
      show (if esComentarioReal (pyStrip s) then some (pyStrip s)
          else none) =
        (if cualificaSpec s then some (pyStrip s) else none)
      by_cases hq : cualificaSpec s
      · rw [if_pos ((esComentarioReal_iff s).mpr hq), if_pos hq]
      · rw [if_neg fun hc => hq ((esComentarioReal_iff s).mp hc),
          if_neg hq]

/-- C5: the synthesized comment equals the `" | "` concatenation, in
candidate-field declaration order, of exactly the qualifying values and
is the sentinel when no field qualifies; in particular the row with
only `"Si"`, `"B"`, `"1234567890123"` yields the sentinel and the prose
value `"El desempeño fue excelente, muy puntual."` is included
verbatim. -/
theorem comentarios_extraccion (fila : String → Option Valor) :
    extraer_comentarios_reales_fila fila = comentarioSintetizadoSpec fila ∧
    extraer_comentarios_reales_fila filaCategorica =
      "Sin comentarios específicos" ∧
    extraer_comentarios_reales_fila filaProsa =
      "El desempeño fue excelente, muy puntual." := by
  refine ⟨?_, by decide, by decide⟩
  unfold extraer_comentarios_reales_fila comentarioSintetizadoSpec
  rw [comentarios_coinciden fila]
  cases aceptadosSpec fila with
  | nil => rfl
  | cons a l => rfl

/-- C9: every row inserted into the time dimension satisfies
`trimestre = (mes - 1) / 3 + 1` and `semestre = 1` when `mes ≤ 6`,
`2` otherwise; in particular month 4 gives quarter 2 and half-year 1,
and month 7 gives quarter 3 and half-year 2. -/
theorem tiempo_derivacion (p : String → Option Fecha)
    (df : List Registro) :
    (∀ row ∈ cargaTiempo p [] df,
      row.trimestre = (row.mes - 1) / 3 + 1 ∧
      row.semestre = if row.mes ≤ 6 then 1 else 2) ∧
    (tiempoRowDe ⟨2024, 4, 15⟩).trimestre = 2 ∧
    (tiempoRowDe ⟨2024, 4, 15⟩).semestre = 1 ∧
    (tiempoRowDe ⟨2024, 7, 1⟩).trimestre = 3 ∧
    (tiempoRowDe ⟨2024, 7, 1⟩).semestre = 2 := by
  refine ⟨?_, by decide, by decide, by decide, by decide⟩
  intro row hrow
  rcases mem_of_mem_foldl TiempoRow.fechacompleta
      ((fechasDe p df).map tiempoRowDe) [] row hrow with h | h
  · cases h
  · rcases List.mem_map.mp h with ⟨f, _, rfl⟩
    exact ⟨rfl, rfl⟩

/-- C9 witness: a snapshot with start date 2024-04-15 inserts a row
whose derived quarter and half-year satisfy the formulas. -/
theorem tiempo_derivacion_testigo :
    (tiempoRowDe ⟨2024, 4, 15⟩).trimestre =
      ((tiempoRowDe ⟨2024, 4, 15⟩).mes - 1) / 3 + 1 ∧
    (tiempoRowDe ⟨2024, 4, 15⟩).semestre =
      (if (tiempoRowDe ⟨2024, 4, 15⟩).mes ≤ 6 then 1 else 2) :=
  (tiempo_derivacion parserTest dfAbril).1 (tiempoRowDe ⟨2024, 4, 15⟩)
    (by decide)

/-- One loop step of `_load_hechos`: its effect on the fact count and
the warning count is decided by `insertable` and `advertida`. -/
theorem pasoHecho_cuentas (env : HechosEnv) (com : List String) (i : Nat)
    (r : Registro) (st : EstadoHechos) :
    (pasoHecho env com i r st).hechos.length =
      st.hechos.length + (if insertable env (i, r) then 1 else 0) ∧
    (pasoHecho env com i r st).advertencias =
      st.advertencias + (if advertida env (i, r) then 1 else 0) := by
  rcases hr : r.rut_alum with _ | rut
  · simp [pasoHecho, insertable, advertida, hr]
  · rcases ha : env.idEstudiantePorRut (pyStrip rut) with _ | a
    · simp [pasoHecho, insertable, advertida, hr, ha]
    · rcases hb : env.idPracticaPorIndice i with _ | b
      · simp [pasoHecho, insertable, advertida, hr, ha, hb]
      · by_cases ha0 : a = 0 <;> by_cases hb0 : b = 0 <;>
          simp [pasoHecho, insertable, advertida, hr, ha, hb, ha0, hb0]

/-- Running the `_load_hechos` loop adds one fact per insertable
position and one warning per warned position. -/
theorem cargaHechosAux_cuentas (env : HechosEnv) (com : List String) :
    ∀ (rs : List Registro) (i : Nat) (st : EstadoHechos),
      (cargaHechosAux env com rs i st).hechos.length =
        st.hechos.length + ((rs.enumFrom i).countP (insertable env)) ∧
      (cargaHechosAux env com rs i st).advertencias =
        st.advertencias + ((rs.enumFrom i).countP (advertida env)) := by
  intro rs
  induction rs with
  | nil => intro i st; simp [cargaHechosAux]
  | cons r rs ih =>
    intro i st
    rcases ih (i + 1) (pasoHecho env com i r st) with ⟨ih1, ih2⟩
    rcases pasoHecho_cuentas env com i r st with ⟨h1, h2⟩
    have hstep : cargaHechosAux env com (r :: rs) i st =
        cargaHechosAux env com rs (i + 1) (pasoHecho env com i r st) := rfl
    constructor
    · rw [hstep, ih1, h1, List.enumFrom_cons, List.countP_cons]
      by_cases hins : insertable env (i, r) <;> simp [hins] <;> omega
    · rw [hstep, ih2, h2, List.enumFrom_cons, List.countP_cons]
      by_cases hadv : advertida env (i, r) <;> simp [hadv] <;> omega

/-- C1 (amended): the fact loader inserts one fact row exactly for each
record whose `rut_alum` is present and whose student and practice keys
resolve truthy, and logs one skip warning exactly for each record whose
`rut_alum` is present but whose required keys do not all resolve; a
record whose `rut_alum` is missing is passed over silently — zero fact
rows and zero logged warnings. -/
theorem hechos_insercion_y_advertencias (env : HechosEnv)
    (com : List String) (registros : List Registro) (r : Registro) :
    (cargaHechos env com registros).hechos.length =
      registros.enum.countP (insertable env) ∧
    (cargaHechos env com registros).advertencias =
      registros.enum.countP (advertida env) ∧
    (r.rut_alum = none → cargaHechos env com [r] = estadoInicial) := by
  refine ⟨?_, ?_, ?_⟩
  · have h := (cargaHechosAux_cuentas env com registros 0 estadoInicial).1
    simpa [cargaHechos, estadoInicial, List.enum] using h
  · have h := (cargaHechosAux_cuentas env com registros 0 estadoInicial).2
    simpa [cargaHechos, estadoInicial, List.enum] using h
  · intro h
    simp [cargaHechos, cargaHechosAux, pasoHecho, h]

/-- C1 witness: a one-record snapshot with the rut missing loads to the
untouched initial state. -/
theorem hechos_insercion_y_advertencias_testigo :
    cargaHechos envNulo [] [registroVacio] = estadoInicial :=
  (hechos_insercion_y_advertencias envNulo [] [] registroVacio).2.2 rfl

/-- C1 counterexample: a record whose `rut_alum` is missing produces
zero fact rows but also ZERO logged warnings — the claim's "one logged
warning" is false, because the skip warning sits inside the
`pd.notna(rut_alum)` branch of `_load_hechos`. -/
theorem hechos_sin_rut_counterexample :
    (cargaHechos envNulo [] [registroVacio]).advertencias = 0 ∧
    (cargaHechos envNulo [] [registroVacio]).hechos = [] :=
  ⟨rfl, rfl⟩

/-- One loop step of `_load_hechos`: a fresh evaluation row with the
next serial key and the comment for the current index is appended
whenever the rut is present; nothing happens otherwise. -/
theorem pasoHecho_evaluaciones (env : HechosEnv) (com : List String)
    (i : Nat) (r : Registro) (st : EstadoHechos) :
    (pasoHecho env com i r st).evaluaciones =
      st.evaluaciones ++
        (match r.rut_alum with
          | none => []
          | some _ =>
            [⟨st.evaluaciones.length + 1, obtenerComentario com i⟩]) := by
  rcases hr : r.rut_alum with _ | rut
  · simp [pasoHecho, hr]
  · rcases ha : env.idEstudiantePorRut (pyStrip rut) with _ | a
    · simp [pasoHecho, hr, ha]
    · rcases hb : env.idPracticaPorIndice i with _ | b
      · simp [pasoHecho, hr, ha, hb]
      · simp only [pasoHecho, hr, ha, hb]
        split <;> rfl

/-- One loop step of `_load_hechos`: the fact table is unchanged or
gains one row whose evaluation key is the freshly created one. -/
theorem pasoHecho_hechos (env : HechosEnv) (com : List String) (i : Nat)
    (r : Registro) (st : EstadoHechos) :
    (pasoHecho env com i r st).hechos = st.hechos ∨
      ∃ a b e t, (pasoHecho env com i r st).hechos =
        st.hechos ++ [⟨a, b, e, t, st.evaluaciones.length + 1, 1⟩] := by
  rcases hr : r.rut_alum with _ | rut
  · left; simp [pasoHecho, hr]
  · rcases ha : env.idEstudiantePorRut (pyStrip rut) with _ | a
    · left; simp [pasoHecho, hr, ha]
    · rcases hb : env.idPracticaPorIndice i with _ | b
      · left; simp [pasoHecho, hr, ha, hb]
      · simp only [pasoHecho, hr, ha, hb]
        split
        · right
          exact ⟨a, b, _, _, rfl⟩
        · left; rfl

/-- Appending one fresh evaluation row (and possibly one fact row
keyed by it) preserves the loader invariant. -/
theorem invHechos_extiende (E : List EvalRow) (H H' : List HechoRow)
    (adv adv' : Nat) (c : String)
    (h : invHechos ⟨E, H, adv⟩)
    (hH : H' = H ∨
      ∃ a b e t, H' = H ++ [⟨a, b, e, t, E.length + 1, 1⟩]) :
    invHechos ⟨E ++ [⟨E.length + 1, c⟩], H', adv'⟩ := by
  obtain ⟨hmem, hsort, hbound⟩ := h
  dsimp only at hmem hsort hbound
  unfold invHechos
  dsimp only
  refine ⟨?_, ?_, ?_⟩
  · intro k h1 h2
    simp only [List.length_append, List.length_cons, List.length_nil,
      List.map_append, List.mem_append, List.map_cons, List.map_nil,
      List.mem_singleton] at h2 ⊢
    by_cases hk : k ≤ E.length
    · exact Or.inl (hmem k h1 hk)
    · right
      omega
  · rcases hH with rfl | ⟨a, b, e, t, rfl⟩
    · exact hsort
    · rw [List.map_append]
      refine List.pairwise_append.mpr ⟨hsort, by simp, ?_⟩
      intro k hk k' hk'
      simp only [List.map_cons, List.map_nil, List.mem_singleton] at hk'
      subst hk'
      have := hbound k hk
      omega
  · intro k hk
    have hlen : (E ++ [(⟨E.length + 1, c⟩ : EvalRow)]).length =
        E.length + 1 := by simp
    rcases hH with rfl | ⟨a, b, e, t, rfl⟩
    · have := hbound k hk
      rw [hlen]
      omega
    · rw [List.map_append, List.mem_append] at hk
      rw [hlen]
      rcases hk with hk | hk
      · have := hbound k hk
        omega
      · simp only [List.map_cons, List.map_nil, List.mem_singleton] at hk
        omega

/-- One loop step of `_load_hechos` preserves the loader invariant. -/
theorem pasoHecho_inv (env : HechosEnv) (com : List String) (i : Nat)
    (r : Registro) (st : EstadoHechos) (h : invHechos st) :
    invHechos (pasoHecho env com i r st) := by
  rcases hr : r.rut_alum with _ | rut
  · have he : pasoHecho env com i r st = st := by simp [pasoHecho, hr]
    rw [he]
    exact h
  · have hev := pasoHecho_evaluaciones env com i r st
    simp only [hr] at hev
    have hhe := pasoHecho_hechos env com i r st
    have hres : invHechos ⟨(pasoHecho env com i r st).evaluaciones,
        (pasoHecho env com i r st).hechos,
        (pasoHecho env com i r st).advertencias⟩ := by
      rw [hev]
      exact invHechos_extiende st.evaluaciones st.hechos
        (pasoHecho env com i r st).hechos st.advertencias
        (pasoHecho env com i r st).advertencias
        (obtenerComentario com i) h hhe
    exact hres

/-- The whole `_load_hechos` loop preserves the loader invariant. -/
theorem cargaHechosAux_inv (env : HechosEnv) (com : List String) :
    ∀ (rs : List Registro) (i : Nat) (st : EstadoHechos),
      invHechos st → invHechos (cargaHechosAux env com rs i st) := by
  intro rs
  induction rs with
  | nil => intro i st h; exact h
  | cons r rs ih =>
    intro i st h
    exact ih (i + 1) (pasoHecho env com i r st)
      (pasoHecho_inv env com i r st h)

/-- The evaluation table built by the `_load_hechos` loop holds, in
order, exactly the synthesized-and-truncated comment of each processed
record whose rut is present. -/
theorem cargaHechosAux_comentarios (env : HechosEnv) (com : List String) :
    ∀ (rs : List Registro) (i : Nat) (st : EstadoHechos),
      (cargaHechosAux env com rs i st).evaluaciones.map
          EvalRow.comentario =
        st.evaluaciones.map EvalRow.comentario ++
          ((rs.enumFrom i).filter fun q => q.2.rut_alum.isSome).map
            fun q => obtenerComentario com q.1 := by
  intro rs
  induction rs with
  | nil => intro i st; simp [cargaHechosAux]
  | cons r rs ih =>
    intro i st
    have hstep : cargaHechosAux env com (r :: rs) i st =
        cargaHechosAux env com rs (i + 1) (pasoHecho env com i r st) := rfl
    rw [hstep, ih (i + 1) (pasoHecho env com i r st),
      pasoHecho_evaluaciones env com i r st]
    rcases hr : r.rut_alum with _ | rut
    · simp [List.enumFrom_cons, hr]
    · simp [List.enumFrom_cons, hr]

/-- C3 (amended): every inserted fact row references its own brand-new
`evaluacion_empresa` row — fact rows reference pairwise distinct
evaluation surrogate keys, each pointing into the evaluation table —
and the evaluation table holds, per processed record with a present
rut, a comment DERIVED from the record's synthesized comment: prefixed
with `"Evaluación N: "` and truncated to 200 characters, with a default
label when the synthesized comment is empty, the extraction sentinel or
out of range.  (Evaluation rows are also created for records whose fact
row is then skipped, so evaluations need not be 1:1 with facts.) -/
theorem evaluaciones_por_hecho (env : HechosEnv) (com : List String)
    (registros : List Registro) :
    List.Pairwise
      (fun a b => a.id_evaluacionempresa ≠ b.id_evaluacionempresa)
      (cargaHechos env com registros).hechos ∧
    (∀ h ∈ (cargaHechos env com registros).hechos,
      h.id_evaluacionempresa ∈
        (cargaHechos env com registros).evaluaciones.map
          EvalRow.id_evaluacionempresa) ∧
    (cargaHechos env com registros).evaluaciones.map EvalRow.comentario =
      (registros.enum.filter fun q => q.2.rut_alum.isSome).map
        fun q => obtenerComentario com q.1 := by
  have hinv : invHechos (cargaHechos env com registros) := by
    refine cargaHechosAux_inv env com registros 0 estadoInicial
      ⟨?_, ?_, ?_⟩
    · intro k h1 h2
      exact absurd (Nat.le_trans h1 h2) (by decide)
    · exact List.Pairwise.nil
    · intro k hk
      simp [estadoInicial] at hk
  obtain ⟨hmem, hsort, hbound⟩ := hinv
  refine ⟨?_, ?_, ?_⟩
  · exact (List.pairwise_map.mp hsort).imp fun hab => Nat.ne_of_lt hab
  · intro h hh
    have hk : h.id_evaluacionempresa ∈
        (cargaHechos env com registros).hechos.map
          HechoRow.id_evaluacionempresa := List.mem_map_of_mem _ hh
    obtain ⟨h1, h2⟩ := hbound _ hk
    exact hmem _ h1 h2
  · have h := cargaHechosAux_comentarios env com registros 0 estadoInicial
    simpa [cargaHechos, estadoInicial, List.enum] using h

/-- C3 witness: for a one-record snapshot whose fact is inserted, the
fact's evaluation key points into the evaluation table. -/
theorem evaluaciones_por_hecho_testigo :
    (⟨1, 1, none, none, 1, 1⟩ : HechoRow).id_evaluacionempresa ∈
      (cargaHechos envUno comUno regUno).evaluaciones.map
        EvalRow.id_evaluacionempresa :=
  (evaluaciones_por_hecho envUno comUno regUno).2.1
    ⟨1, 1, none, none, 1, 1⟩ (by decide)

/-- C3 counterexample: the stored evaluation comment is the prefixed
truncation `"Evaluación 1: …"`, not the synthesized comment itself; and
when the student key does not resolve, an evaluation row is created
while the fact row is skipped, so evaluations are not strictly 1:1 with
fact rows. -/
theorem evaluaciones_comentario_counterexample :
    (cargaHechos envUno comUno regUno).evaluaciones.map
        EvalRow.comentario =
      ["Evaluación 1: Excelente trabajo, muy puntual"] ∧
    ("Evaluación 1: Excelente trabajo, muy puntual" ≠
      "Excelente trabajo, muy puntual") ∧
    (cargaHechos envNulo comUno regUno).evaluaciones.length = 1 ∧
    (cargaHechos envNulo comUno regUno).hechos = [] := by
  exact ⟨by decide, by decide, rfl, rfl⟩
